import Mathlib

set_option maxRecDepth 4000

/-!
Verification of the aws-capnp repository: the AWS SigV4 signing middleware
(src/hash.h, src/hash.cpp, the HttpContext helpers) and the S3 multipart
upload engine (src/s3.cpp), together with the from-scratch SHA-256
implementation (src/sha256.cpp).

Strings are modelled as Lean `String` (all inputs involved are ASCII);
byte sequences as `List Nat` with every element below 256; machine words as
`Nat` reduced modulo `2 ^ 32` or `2 ^ 64` where the C++ code uses `uint32_t`
or `uint64_t`.
-/

namespace AwsCapnp

/-- Byte sequence: each element is one byte value. -/
abbrev Bytes := List Nat

/-- The bytes of an ASCII string (kj `StringPtr::asBytes`). -/
def strBytes (s : String) : Bytes := s.data.map Char.toNat

/-- Lowercase hex digit, as produced by `kj::encodeHex`. -/
def hexDigit (n : Nat) : Char :=
  if n < 10 then Char.ofNat (48 + n) else Char.ofNat (87 + n)

/-- Two lowercase hex digits of one byte. -/
def encodeHexByte (b : Nat) : String := String.mk [hexDigit (b / 16), hexDigit (b % 16)]

/-- `kj::encodeHex`: lowercase hex of a byte array. -/
def encodeHex (bs : Bytes) : String := String.join (bs.map encodeHexByte)

/-- The precomputed sha-256 of the empty string (sha256.h, `hash::EMPTY_STRING_SHA256`). -/
def EMPTY_STRING_SHA256 : String :=
  "e3b0c44298fc1c149afbf4c8996fb92427ae41e4649b934ca495991b7852b855"

/-! ## The SigV4 signer of `AwsService` (src/hash.h) -/

/-- The constant signed-header list (hash.h:49-53, `AwsService::signedHeaders`). -/
def signedHeaders : String :=
  "amz-sdk-invocation-id;amz-sdk-request;host;x-amz-content-sha256;x-amz-date"

/-- The canonical header names hashed by `AwsService::hashRequest`
(hash.h:228-232), in the order the code emits them. -/
def canonicalHeaderNames : List String :=
  ["amz-sdk-invocation-id", "amz-sdk-request", "host", "x-amz-content-sha256", "x-amz-date"]

/-- The scope suffix built once in the `AwsService` constructor (hash.h:113):
`kj::str('/', region_, '/', service_, "/aws4_request")`. -/
def scopeStr (region service : String) : String :=
  "/" ++ region ++ "/" ++ service ++ "/aws4_request"

/-- The string to sign assembled in `AwsService::request` (hash.h:156-163):
`"AWS4-HMAC-SHA256\n" + ds + '\n' + ymd + scope_ + '\n' + requestHash`. -/
def stringToSign (ds ymd scope requestHash : String) : String :=
  "AWS4-HMAC-SHA256\n" ++ ds ++ "\n" ++ ymd ++ scope ++ "\n" ++ requestHash

/-- The signature computed in `AwsService::request` (hash.h:153-176),
parameterized by the HMAC-SHA256 primitive: `HashContext::hash` wraps the
OpenSSL EVP HMAC, which the spec treats as an assumed primitive. `ds` is the
formatted `%Y%m%dT%H%M%SZ` date; `ymd = ds.slice(0, 8)`. -/
def requestSignature (hmac : Bytes → Bytes → Bytes)
    (secretKey region service ds requestHash : String) : String :=
  let ymd := ds.take 8
  let sts := stringToSign ds ymd (scopeStr region service) requestHash
  let signingKey := "AWS4" ++ secretKey
  let h1 := hmac (strBytes signingKey) (strBytes ymd)
  let h2 := hmac h1 (strBytes region)
  let h3 := hmac h2 (strBytes service)
  let h4 := hmac h3 (strBytes "aws4_request")
  encodeHex (hmac h4 (strBytes sts))

/-- The `Authorization` value installed by `AwsService::request` (hash.h:178-186):
`"AWS4-HMAC-SHA256 Credential=" + accessKey + '/' + ymd + scope_ +
", SignedHeaders=" + signedHeaders + ", Signature=" + signature`. -/
def authHeader (accessKey region service ds signature : String) : String :=
  "AWS4-HMAC-SHA256 Credential=" ++ accessKey ++ "/" ++ ds.take 8 ++
    scopeStr region service ++ ", SignedHeaders=" ++ signedHeaders ++
    ", Signature=" ++ signature

/-! ## Content hash selection (hash.h:133-139)

`AwsService::request` starts with `contentHash = "UNSIGNED-PAYLOAD"` and then:

  KJ_IF_MAYBE(length, body.tryGetLength()) \x7b
    if (length == 0u) \x7b contentHash = hash::EMPTY_STRING_SHA256; \x7d
  \x7d

`KJ_IF_MAYBE` binds `length` as a POINTER to the maybe value, and `0u` is a
null-pointer constant, so `length == 0u` is a null test of a pointer that is
non-null whenever the branch is entered: it is `false` for every known
length, including zero.  (Verified against g++: `ptr == 0u` compiles as a
null-pointer comparison.) -/

/-- The null test `length == 0u` performed on the pointer bound by
`KJ_IF_MAYBE` (hash.h:136); the pointer is non-null inside the branch. -/
def lengthPtrIsNull : Bool := false

/-- The `x-amz-content-sha256` value chosen by `AwsService::request`
(hash.h:133-139) from the body length reported by `tryGetLength`. -/
def contentHash (lengthMaybe : Option Nat) : String :=
  match lengthMaybe with
  | some _length => if lengthPtrIsNull then EMPTY_STRING_SHA256 else "UNSIGNED-PAYLOAD"
  | none => "UNSIGNED-PAYLOAD"

/-! ## Header stamping (hash.h:141-151) -/

/-- A header map, modelled as an association list; `set` replaces the value
of an existing name or appends (`kj::HttpHeaders::set`). -/
abbrev Headers := List (String × String)

/-- `kj::HttpHeaders::set`. -/
def headersSet (hs : Headers) (name value : String) : Headers :=
  if hs.any (fun p => p.1 = name) then
    hs.map (fun p => if p.1 = name then (name, value) else p)
  else
    hs ++ [(name, value)]

/-- The header mutations of `AwsService::request` (hash.h:141-151): stamp
`amz-sdk-invocation-id`, `amz-sdk-request`, `x-amz-date`,
`x-amz-content-sha256`, then `X-Amz-Security-Token` only when the session
token is non-empty. -/
def stampHeaders (requestHeaders : Headers) (id ds contentHashValue sessionToken : String) :
    Headers :=
  let hs := headersSet requestHeaders "amz-sdk-invocation-id" id
  let hs := headersSet hs "amz-sdk-request" "attempt=1"
  let hs := headersSet hs "x-amz-date" ds
  let hs := headersSet hs "x-amz-content-sha256" contentHashValue
  if sessionToken.length ≠ 0 then headersSet hs "X-Amz-Security-Token" sessionToken else hs

/-! ## Canonical URI and canonical query (hash.h:201-219)

`AwsService::hashRequest` parses the URL with `kj::Url::parse` (which
percent-decodes path segments and query names and values) and feeds the
canonical request piecewise into sha-256.  The canonical URI is
`kj::str("/", kj::strArray(url.path, "/"))` and the canonical query is
`kj::strArray(KJ_MAP(param, url.query) \x7b kj::str(param.name, "=", param.value) \x7d, "&")`. -/

/-- Canonical URI as hashed by `AwsService::hashRequest` (hash.h:204):
slash plus the parsed path segments joined by slashes, with no
percent-encoding applied. -/
def canonicalUri (segments : List String) : String :=
  "/" ++ String.intercalate "/" segments

/-- Canonical query string as hashed by `AwsService::hashRequest`
(hash.h:213-219): each parsed parameter rendered `name=value` in parse
order, joined by `&`. -/
def canonicalQuery (params : List (String × String)) : String :=
  String.intercalate "&" (params.map (fun p => p.1 ++ "=" ++ p.2))

/-- Modelled from the spec: single percent-encoding of one path segment as
section 4.1 prescribes it — unreserved characters `A-Za-z0-9-._~` pass
through, every other byte becomes `%` plus two uppercase hex digits. -/
def specUriEncodeChar (c : Char) : String :=
  if c.isAlpha ∨ c.isDigit ∨ c = '-' ∨ c = '.' ∨ c = '_' ∨ c = '~' then String.mk [c]
  else
    let b := c.toNat
    let hi := b / 16
    let lo := b % 16
    let hexUp := fun n => if n < 10 then Char.ofNat (48 + n) else Char.ofNat (55 + n)
    String.mk ['%', hexUp hi, hexUp lo]

/-- Modelled from the spec: a whole segment percent-encoded once. -/
def specUriEncodeSegment (s : String) : String :=
  String.join (s.data.map specUriEncodeChar)

/-- Modelled from the spec: the canonical URI of section 4.1 — `"/"` for an
empty path, otherwise the singly percent-encoded segments joined by `/`. -/
def specCanonicalUri (segments : List String) : String :=
  if segments = [] then "/"
  else "/" ++ String.intercalate "/" (segments.map specUriEncodeSegment)

/-- Lexicographic byte order on character lists. -/
def charListLt : List Char → List Char → Bool
  | [], [] => false
  | [], _ :: _ => true
  | _ :: _, [] => false
  | c :: cs, d :: ds =>
    if c.toNat < d.toNat then true
    else if d.toNat < c.toNat then false
    else charListLt cs ds

/-- Lexicographic byte order on strings. -/
def strLt (a b : String) : Bool := charListLt a.data b.data

/-- Ordering on query parameters prescribed by the spec: lexicographic by
(key, value). -/
def paramLe (p q : String × String) : Bool :=
  if p.1 = q.1 then strLt p.2 q.2 || p.2 == q.2 else strLt p.1 q.1

/-- Insertion into a sorted parameter list. -/
def paramInsert (p : String × String) : List (String × String) → List (String × String)
  | [] => [p]
  | q :: qs => if paramLe p q then p :: q :: qs else q :: paramInsert p qs

/-- Insertion sort of query parameters. -/
def paramSort : List (String × String) → List (String × String)
  | [] => []
  | p :: ps => paramInsert p (paramSort ps)

/-- Modelled from the spec: the canonical query string of section 4.1 —
parameters sorted lexicographically by (key, value), each rendered
`key=value`, joined with `&`. -/
def specCanonicalQuery (params : List (String × String)) : String :=
  String.intercalate "&" ((paramSort params).map (fun p => p.1 ++ "=" ++ p.2))

/-- The amended reading of the canonical query: each parameter rendered
`key=value` with the `=` always present, in the order the parameters appear
in the URL, `&` between consecutive pairs. -/
def orderedQuery : List (String × String) → String
  | [] => ""
  | [p] => p.1 ++ "=" ++ p.2
  | p :: q :: ps => p.1 ++ "=" ++ p.2 ++ "&" ++ orderedQuery (q :: ps)

/-- The `&`-separated tail of a rendered query. -/
def ampTail : List String → String
  | [] => ""
  | a :: as => "&" ++ a ++ ampTail as

/-! ## `HttpContext::signingString` (unnamed part_000:60-69)

Builds the string to sign but terminates it with a hard-coded constant,
ignoring its `hash` argument. -/

/-- `HttpContext::signingString` with the date already formatted: the source
renders `dateStr(date, "%Y%m%dT%H%M%SZ")`, its first eight characters, the
scope, and then the literal constant — the `hash` parameter is unused. -/
def signingString (ds scope _hash : String) : String :=
  "AWS4-HMAC-SHA256\n" ++ ds ++ "\n" ++ ds.take 8 ++ scope ++ "\n" ++
    "2c31cb8ee9244dc6872a9079e221cd10d1a178e4aa16a6c3796e0e203770fe96"

/-! ## The multipart upload engine, `MultipartStream` (src/s3.cpp) -/

/-- One entry of `MultipartStream::parts_` (s3.cpp:184-188). -/
structure PartRec where
  partNumber : Nat
  etag : String
deriving DecidableEq, Repr

/-- The part bookkeeping of `MultipartStream::sendPart` (s3.cpp:515-521):
`parts_.add()` then `partNumber = parts_.size()`. -/
def addPart (parts : List PartRec) : List PartRec :=
  parts ++ [⟨parts.length + 1, ""⟩]

/-- Submitting `n` parts: `n` successive `sendPart` calls. -/
def submitParts (n : Nat) : List PartRec :=
  Nat.rec [] (fun _ acc => addPart acc) n

/-- The etag-recording continuation of `sendPart` (s3.cpp:540-546):
`parts_[partNumber - 1].etag_ = kj::str(etag)`; only the etag field of the
entry at index `partNumber - 1` changes. -/
def recordEtag (parts : List PartRec) (partNumber : Nat) (etag : String) : List PartRec :=
  match parts[partNumber - 1]? with
  | some p => parts.set (partNumber - 1) ⟨p.partNumber, etag⟩
  | none => parts

/-- Responses arriving in any order, each recorded by its own continuation. -/
def recordAll (parts : List PartRec) (arrivals : List (Nat × String)) : List PartRec :=
  arrivals.foldl (fun ps a => recordEtag ps a.1 a.2) parts

/-- The XML of one part in the completion body (s3.cpp:556-564). -/
def partXml (p : PartRec) : String :=
  "<Part><PartNumber>" ++ toString p.partNumber ++ "</PartNumber><ETag>" ++
    p.etag ++ "</ETag></Part>"

/-- The completion body built by `MultipartStream::complete` (s3.cpp:554-566):
the parts of `parts_` rendered in list order. -/
def completeXml (parts : List PartRec) : String :=
  "<CompleteMultipartUpload>" ++ String.join (parts.map partXml) ++
    "</CompleteMultipartUpload>"

/-! ## The write path, `MultipartStream::write` (s3.cpp:485-513)

The byte-level write with buffer capacity `c` (`bufferSize_`, 8 MiB by
default) and current fill `fill` (`out_->getArray().size()`):

* an empty write returns at once;
* with `remaining = c - fill`, when `remaining <= bytes.size()` the code
  returns `write(bytes.slice(0, remaining))` chained with
  `write(bytes.slice(remaining, bytes.size()))` — and the state is unchanged
  when the first recursive call starts;
* otherwise the bytes are appended to the buffer, and the flush branch
  guarded by `bytes.size() == remaining` dispatches a part and resets the
  buffer.

Only the sizes matter for the claims, so the state tracks the fill level and
the sizes of dispatched parts, and the recursion is given explicit fuel: a
`none` result means the recursion has not produced a settled promise within
that fuel, for any fuel. -/

/-- Buffer state of a `MultipartStream`: current fill and the sizes of the
parts dispatched so far. -/
structure WriteState where
  fill : Nat
  partsSent : List Nat
deriving DecidableEq, Repr

/-- Fueled interpretation of `MultipartStream::write` (s3.cpp:485-513) for a
write of `s` bytes against capacity `c`. -/
def writeFuel (c : Nat) : Nat → WriteState → Nat → Option WriteState
  | 0, _, _ => none
  | fuel + 1, st, s =>
    if s = 0 then some st
    else
      let remaining := c - st.fill
      if remaining ≤ s then
        match writeFuel c fuel st remaining with
        | none => none
        | some st2 => writeFuel c fuel st2 (s - remaining)
      else
        let fill2 := st.fill + s
        if s = remaining then some ⟨0, st.partsSent ++ [fill2]⟩
        else some ⟨fill2, st.partsSent⟩

/-! ## Failure handling and close (s3.cpp:169-171, 609-626)

`MultipartStream::taskFailed` only logs the exception; `finish` waits for
`tasks_.onEmpty()` (the kj `TaskSet` reports a failed task to `taskFailed`
and drops it), sends any buffered remainder as a final part, and always
calls `complete`, which POSTs the completion XML. -/

/-- Outbound requests the engine can issue during failure handling and close. -/
inductive S3Req where
  | putPart (partNumber : Nat) (size : Nat)
  | completePost (xml : String)
  | abortDelete (uploadId : String)
deriving DecidableEq, Repr

/-- `MultipartStream::taskFailed` (s3.cpp:169-171): `KJ_LOG(ERROR, exc)` and
nothing else — the parts list, and with it all later behaviour, is unchanged. -/
def taskFailed (parts : List PartRec) (_exc : String) : List PartRec :=
  parts

/-- The close path `MultipartStream::finish` (s3.cpp:609-626) after every
part task settled: the exceptions of failed tasks have been fed one by one
to `taskFailed`; then the buffered remainder (if non-empty) becomes a final
part, and `complete` (s3.cpp:550-607) POSTs the completion XML.  Returns the
requests issued and the result of `close` (the commit outcome). -/
def finishUpload (parts : List PartRec) (failures : List String) (leftoverSize : Nat)
    (leftoverEtag : String) (commitResponse : Except String String) :
    List S3Req × Except String String :=
  let partsAfterFailures := failures.foldl taskFailed parts
  if leftoverSize ≠ 0 then
    ([S3Req.putPart (partsAfterFailures.length + 1) leftoverSize,
      S3Req.completePost (completeXml
        (recordEtag (addPart partsAfterFailures) (partsAfterFailures.length + 1) leftoverEtag))],
     commitResponse)
  else
    ([S3Req.completePost (completeXml partsAfterFailures)], commitResponse)

/-! ## SHA-256 (src/sha256.cpp)

Two implementations live in sha256.cpp: the from-scratch `Sha256x`
(lines 55-170, declared in sha256.h with `kj::FixedArray<uint32_t, 8>
m_state\x7b\x7d`, i.e. value-initialized to all zeroes, and an empty default
constructor) and `hash::sha256`, which delegates to the OpenSSL EVP digest.
The OpenSSL side is an assumed primitive; it is modelled from the spec as
standard (FIPS 180-4) SHA-256. -/

/-- Truncation to a `uint32_t`. -/
def w32 (x : Nat) : Nat := x % 2 ^ 32

/-- `rotr` (sha256.cpp:33-35): `(x >> n) | (x << (32 - n))` on `uint32_t`. -/
def rotr (x n : Nat) : Nat := w32 ((x >>> n) ||| (x <<< (32 - n)))

/-- `choose` (sha256.cpp:37-39): `(e & f) ^ (~e & g)`; on a 32-bit value the
complement is xor with `0xffffffff`. -/
def choose (e f g : Nat) : Nat := (e &&& f) ^^^ ((e ^^^ 0xffffffff) &&& g)

/-- `majority` (sha256.cpp:41-43): `(a & (b | c)) | (b & c)`. -/
def majority (a b c : Nat) : Nat := (a &&& (b ||| c)) ||| (b &&& c)

/-- `sig0` (sha256.cpp:45-47). -/
def sig0 (x : Nat) : Nat := rotr x 7 ^^^ rotr x 18 ^^^ (x >>> 3)

/-- `sig1` (sha256.cpp:49-51). -/
def sig1 (x : Nat) : Nat := rotr x 17 ^^^ rotr x 19 ^^^ (x >>> 10)

/-- The round constants `K` (sha256.cpp:14-31). -/
def K : List Nat :=
  [0x428a2f98, 0x71374491, 0xb5c0fbcf, 0xe9b5dba5,
   0x3956c25b, 0x59f111f1, 0x923f82a4, 0xab1c5ed5] ++
  [0xd807aa98, 0x12835b01, 0x243185be, 0x550c7dc3,
   0x72be5d74, 0x80deb1fe, 0x9bdc06a7, 0xc19bf174] ++
  [0xe49b69c1, 0xefbe4786, 0x0fc19dc6, 0x240ca1cc,
   0x2de92c6f, 0x4a7484aa, 0x5cb0a9dc, 0x76f988da] ++
  [0x983e5152, 0xa831c66d, 0xb00327c8, 0xbf597fc7,
   0xc6e00bf3, 0xd5a79147, 0x06ca6351, 0x14292967] ++
  [0x27b70a85, 0x2e1b2138, 0x4d2c6dfc, 0x53380d13,
   0x650a7354, 0x766a0abb, 0x81c2c92e, 0x92722c85] ++
  [0xa2bfe8a1, 0xa81a664b, 0xc24b8b70, 0xc76c51a3,
   0xd192e819, 0xd6990624, 0xf40e3585, 0x106aa070] ++
  [0x19a4c116, 0x1e376c08, 0x2748774c, 0x34b0bcb5,
   0x391c0cb3, 0x4ed8aa4a, 0x5b9cca4f, 0x682e6ff3] ++
  [0x748f82ee, 0x78a5636f, 0x84c87814, 0x8cc70208,
   0x90befffa, 0xa4506ceb, 0xbef9a3f7, 0xc67178f2]

/-- The first sixteen words of the message schedule (sha256.cpp:69-75): four
big-endian bytes per word. -/
def schedW0 : List Nat → List Nat
  | b0 :: b1 :: b2 :: b3 :: rest => ((b0 <<< 24) ||| (b1 <<< 16) ||| (b2 <<< 8) ||| b3) :: schedW0 rest
  | _ => []

/-- Extension of the message schedule to 64 words (sha256.cpp:77-81), with
`uint32_t` wrap-around addition. -/
def schedExtend (w : List Nat) : Nat → List Nat
  | 0 => w
  | steps + 1 =>
    let ii := w.length
    let next := w32 (sig1 (w.getD (ii - 2) 0) + w.getD (ii - 7) 0 +
      sig0 (w.getD (ii - 15) 0) + w.getD (ii - 16) 0)
    schedExtend (w ++ [next]) steps

/-- The 64-word message schedule of one 64-byte block. -/
def schedule (block : List Nat) : List Nat := schedExtend (schedW0 block) 48

/-- The working registers A..H of `Sha256x::transform`. -/
structure Regs where
  a : Nat
  b : Nat
  c : Nat
  d : Nat
  e : Nat
  f : Nat
  g : Nat
  h : Nat
deriving DecidableEq, Repr

/-- One round of the compression loop (sha256.cpp:92-111), with `uint32_t`
wrap-around. -/
def roundStep (r : Regs) (wk : Nat × Nat) : Regs :=
  let maj := majority r.a r.b r.c
  let s0 := rotr r.a 2 ^^^ rotr r.a 13 ^^^ rotr r.a 22
  let s1 := rotr r.e 6 ^^^ rotr r.e 11 ^^^ rotr r.e 25
  let ch := choose r.e r.f r.g
  let sum := w32 (wk.1 + wk.2 + r.h + ch + s1)
  ⟨w32 (s0 + maj + sum), r.a, r.b, r.c, w32 (r.d + sum), r.e, r.f, r.g⟩

/-- `Sha256x::transform` (sha256.cpp:66-121): schedule, 64 rounds, then
wrap-around addition into the state words. -/
def transform (state : List Nat) (block : List Nat) : List Nat :=
  let w := schedule block
  let r0 : Regs := ⟨state.getD 0 0, state.getD 1 0, state.getD 2 0, state.getD 3 0,
    state.getD 4 0, state.getD 5 0, state.getD 6 0, state.getD 7 0⟩
  let r := (w.zip K).foldl roundStep r0
  [w32 (state.getD 0 0 + r.a), w32 (state.getD 1 0 + r.b),
   w32 (state.getD 2 0 + r.c), w32 (state.getD 3 0 + r.d),
   w32 (state.getD 4 0 + r.e), w32 (state.getD 5 0 + r.f),
   w32 (state.getD 6 0 + r.g), w32 (state.getD 7 0 + r.h)]

/-- The state of a `Sha256x` object (sha256.h:39-57).  `m_data` is modelled
by its live prefix `data` (the first `m_blocklen` bytes — the only ones the
code ever reads before overwriting); `m_state` is value-initialized to all
zeroes by `m_state\x7b\x7d`, and the empty constructor `Sha256x() \x7b\x7d` never
writes the SHA-256 initial hash words into it. -/
structure Sha256x where
  data : List Nat
  state : List Nat
  bitlen : Nat
deriving DecidableEq, Repr

/-- A freshly constructed `Sha256x`: zero buffer, all-zero state words. -/
def Sha256x.init : Sha256x := ⟨[], List.replicate 8 0, 0⟩

/-- One iteration of the loop in `Sha256x::update` (sha256.cpp:55-64):
append the byte; on reaching 64 buffered bytes run `transform`, add 512 to
`m_bitlen` and reset `m_blocklen`. -/
def Sha256x.updateByte (s : Sha256x) (b : Nat) : Sha256x :=
  let data2 := s.data ++ [b]
  if data2.length = 64 then
    ⟨[], transform s.state data2, s.bitlen + 512⟩
  else
    ⟨data2, s.state, s.bitlen⟩

/-- `Sha256x::update` over a byte array. -/
def Sha256x.update (s : Sha256x) (bs : Bytes) : Sha256x :=
  bs.foldl Sha256x.updateByte s

/-- The eight big-endian length bytes written by `Sha256x::pad`
(sha256.cpp:143-150) from the `uint64_t` bit length. -/
def lenBytes (bits : Nat) : List Nat :=
  [(bits >>> 56) % 256, (bits >>> 48) % 256, (bits >>> 40) % 256, (bits >>> 32) % 256,
   (bits >>> 24) % 256, (bits >>> 16) % 256, (bits >>> 8) % 256, bits % 256]

/-- `Sha256x::pad` (sha256.cpp:123-153), returning the final state words:
append `0x80` and zeroes up to 56 (or 64 and transform, then a zero block),
then the bit length big-endian in bytes 56..63, then a final transform. -/
def Sha256x.pad (s : Sha256x) : List Nat :=
  let blocklen := s.data.length
  let bits := (s.bitlen + blocklen * 8) % 2 ^ 64
  if blocklen < 56 then
    transform s.state (s.data ++ 0x80 :: List.replicate (55 - blocklen) 0 ++ lenBytes bits)
  else
    let st1 := transform s.state (s.data ++ 0x80 :: List.replicate (63 - blocklen) 0)
    transform st1 (List.replicate 56 0 ++ lenBytes bits)

/-- `Sha256x::revert` (sha256.cpp:162-170): serialize the eight state words
big-endian, word `j` at bytes `4j .. 4j+3`. -/
def revert (state : List Nat) : Bytes :=
  state.flatMap (fun w => [(w >>> 24) % 256, (w >>> 16) % 256, (w >>> 8) % 256, w % 256])

/-- `Sha256x::digest` (sha256.cpp:155-160): pad, then serialize. -/
def Sha256x.digest (s : Sha256x) : Bytes := revert s.pad

/-! ## Reference SHA-256 (modelled from the spec)

Modelled from the spec: the OpenSSL-backed `hash::sha256`
(sha256.cpp:172-182) is an external primitive the spec assumes available;
it computes standard FIPS 180-4 SHA-256, written here in the standard
one-shot form: pad the whole message, then compress 64-byte blocks starting
from the standard initial hash words. -/

/-- The standard SHA-256 initial hash words. -/
def H0 : List Nat :=
  [0x6a09e667, 0xbb67ae85, 0x3c6ef372, 0xa54ff53a,
   0x510e527f, 0x9b05688c, 0x1f83d9ab, 0x5be0cd19]

/-- Standard SHA-256 padding of a whole message. -/
def padMessage (msg : Bytes) : Bytes :=
  msg ++ 0x80 :: List.replicate ((64 - (msg.length + 9) % 64) % 64) 0 ++
    lenBytes ((msg.length * 8) % 2 ^ 64)

/-- A list cut into 64-byte blocks, structurally recursive on a fuel that
bounds the number of blocks. -/
def blocks64Go : Nat → Bytes → List (List Nat)
  | 0, _ => []
  | fuel + 1, bs => if bs = [] then [] else bs.take 64 :: blocks64Go fuel (bs.drop 64)

/-- A list cut into 64-byte blocks. -/
def blocks64 (bs : Bytes) : List (List Nat) := blocks64Go bs.length bs

/-- Modelled from the spec: one-shot standard SHA-256, the behaviour of the
OpenSSL-backed `hash::sha256`. -/
def sha256 (msg : Bytes) : Bytes :=
  revert ((blocks64 (padMessage msg)).foldl transform H0)

/-! ## Theorems -/

/-- Claim C1: for every request signed by the middleware, the signature
equals `hex(HMAC_SHA256(key, stringToSign))` where `key` is the chained
derivation `HMAC(HMAC(HMAC(HMAC("AWS4" + secretKey, yyyymmdd), region),
service), "aws4_request")`, and the installed `Authorization` value is
`"AWS4-HMAC-SHA256 Credential=" + accessKey + "/" + yyyymmdd + "/" + region
+ "/" + service + "/aws4_request, SignedHeaders=" + signedHeaders +
", Signature=" + signature`. -/
theorem signature_is_chained_hmac_and_auth_header_formula
    (hmac : Bytes → Bytes → Bytes)
    (secretKey accessKey region service ds requestHash sig : String) :
    requestSignature hmac secretKey region service ds requestHash =
      encodeHex (hmac
        (hmac (hmac (hmac (hmac (strBytes ("AWS4" ++ secretKey)) (strBytes (ds.take 8)))
          (strBytes region)) (strBytes service)) (strBytes "aws4_request"))
        (strBytes (stringToSign ds (ds.take 8) (scopeStr region service) requestHash))) ∧
    authHeader accessKey region service ds sig =
      "AWS4-HMAC-SHA256 Credential=" ++ accessKey ++ "/" ++ ds.take 8 ++ "/" ++ region ++ "/" ++
        service ++ "/aws4_request, SignedHeaders=" ++ signedHeaders ++ ", Signature=" ++ sig := by
  constructor
  · rfl
  · simp only [authHeader, scopeStr]
    rw [show ("/aws4_request, SignedHeaders=" : String) =
      "/aws4_request" ++ ", SignedHeaders=" from rfl]
    simp [String.append_assoc]

/-- A closed witness instance: the signature and `Authorization` header of
claim C1 at concrete inputs, with a concrete stand-in for the HMAC
primitive. -/
theorem signature_is_chained_hmac_and_auth_header_formula_witness :
    requestSignature (fun k d => k ++ d) "SECRET" "us-east-1" "s3" "20230730T133730Z" "cafe" =
      encodeHex ((((((strBytes ("AWS4" ++ "SECRET")) ++ (strBytes ("20230730T133730Z".take 8))) ++
        (strBytes "us-east-1")) ++ (strBytes "s3")) ++ (strBytes "aws4_request")) ++
        (strBytes (stringToSign "20230730T133730Z" ("20230730T133730Z".take 8)
          (scopeStr "us-east-1" "s3") "cafe"))) ∧
    authHeader "AKID" "us-east-1" "s3" "20230730T133730Z" "f00d" =
      "AWS4-HMAC-SHA256 Credential=" ++ "AKID" ++ "/" ++ "20230730T133730Z".take 8 ++ "/" ++
        "us-east-1" ++ "/" ++ "s3" ++
        "/aws4_request, SignedHeaders=" ++ signedHeaders ++ ", Signature=" ++ "f00d" :=
  ⟨(signature_is_chained_hmac_and_auth_header_formula (fun k d => k ++ d)
      "SECRET" "AKID" "us-east-1" "s3" "20230730T133730Z" "cafe" "f00d").1,
   (signature_is_chained_hmac_and_auth_header_formula (fun k d => k ++ d)
      "SECRET" "AKID" "us-east-1" "s3" "20230730T133730Z" "cafe" "f00d").2⟩

/-- Every exception fed to `MultipartStream::taskFailed` leaves the engine
unchanged. -/
theorem foldl_taskFailed_fixed (failures : List String) (parts : List PartRec) :
    failures.foldl taskFailed parts = parts := by
  induction failures <;> simp_all [taskFailed]

/-- Claim C2 counterexample: two submitted parts, part 2 rejected with an
HTTP 500; `finish` still issues only the commit POST (with the failed
part's empty etag), no `DELETE ?uploadId=U` is sent, and close resolves
with the commit response instead of the original error. -/
theorem part_failure_counterexample :
    finishUpload (recordAll (submitParts 2) [(1, "\"e1\"")]) ["HTTP 500"] 0 ""
        (Except.ok "\"etag\"") =
      ([S3Req.completePost "<CompleteMultipartUpload><Part><PartNumber>1</PartNumber><ETag>\"e1\"</ETag></Part><Part><PartNumber>2</PartNumber><ETag></ETag></Part></CompleteMultipartUpload>"],
       Except.ok "\"etag\"") := by
  rfl

/-- Claim C2 amended: a failed part-upload task is only logged by
`taskFailed`; the upload never issues an abort `DELETE`, the commit POST is
always among the requests `finish` issues, the result of close is the
commit outcome, and the behaviour is identical to a run with no failures at
all — the original error is not propagated. -/
theorem part_failure_is_swallowed (parts : List PartRec) (failures : List String)
    (leftoverSize : Nat) (leftoverEtag : String) (commitResponse : Except String String) :
    (∀ u, S3Req.abortDelete u ∉
      (finishUpload parts failures leftoverSize leftoverEtag commitResponse).1) ∧
    (∃ xml, S3Req.completePost xml ∈
      (finishUpload parts failures leftoverSize leftoverEtag commitResponse).1) ∧
    (finishUpload parts failures leftoverSize leftoverEtag commitResponse).2 = commitResponse ∧
    finishUpload parts failures leftoverSize leftoverEtag commitResponse =
      finishUpload parts [] leftoverSize leftoverEtag commitResponse := by
  by_cases hl : leftoverSize = 0 <;>
    simp [finishUpload, foldl_taskFailed_fixed, hl]

/-- Claim C3 counterexample: with a known body length of zero the middleware
still sends `UNSIGNED-PAYLOAD`, not the empty-string sha-256 constant the
claim prescribes (`length == 0u` in hash.h:136 is a null test of the
pointer bound by `KJ_IF_MAYBE`, which never holds). -/
theorem content_hash_zero_length_counterexample :
    contentHash (some 0) = "UNSIGNED-PAYLOAD" ∧
    contentHash (some 0) ≠ EMPTY_STRING_SHA256 := by
  decide

/-- Claim C3 amended: the `x-amz-content-sha256` value is the literal
`UNSIGNED-PAYLOAD` for every body, whatever `tryGetLength` reports. -/
theorem content_hash_always_unsigned_payload (lengthMaybe : Option Nat) :
    contentHash lengthMaybe = "UNSIGNED-PAYLOAD" := by
  cases lengthMaybe <;> rfl

/-- Claim C5 counterexample: the query `b=2&a=1` is hashed in parse order,
not in the lexicographically sorted order the claim prescribes. -/
theorem canonical_query_not_sorted_counterexample :
    canonicalQuery [("b", "2"), ("a", "1")] = "b=2&a=1" ∧
    specCanonicalQuery [("b", "2"), ("a", "1")] = "a=1&b=2" ∧
    canonicalQuery [("b", "2"), ("a", "1")] ≠ specCanonicalQuery [("b", "2"), ("a", "1")] := by
  decide

/-- Claim C9: `HttpContext::signingString` ends in the hard-coded constant
`2c31cb...fe96` whatever hash it is given, so the "ends with the supplied
hash" part of the claim fails, while the string to sign actually used by
`AwsService::request` does follow the claimed format. -/
theorem signing_string_ignores_hash_argument :
    signingString "20230730T133730Z" "/us-east-1/s3/aws4_request" "deadbeef" =
      "AWS4-HMAC-SHA256\n20230730T133730Z\n20230730/us-east-1/s3/aws4_request\n2c31cb8ee9244dc6872a9079e221cd10d1a178e4aa16a6c3796e0e203770fe96" ∧
    signingString "20230730T133730Z" "/us-east-1/s3/aws4_request" "deadbeef" ≠
      "AWS4-HMAC-SHA256\n" ++ "20230730T133730Z" ++ "\n" ++ "20230730" ++
        "/us-east-1/s3/aws4_request" ++ "\n" ++ "deadbeef" ∧
    stringToSign "20230730T133730Z" "20230730" "/us-east-1/s3/aws4_request" "deadbeef" =
      "AWS4-HMAC-SHA256\n20230730T133730Z\n20230730/us-east-1/s3/aws4_request\ndeadbeef" := by
  decide

/-- Claim C10: the from-scratch `Sha256x` starts from an all-zero state
(`m_state\x7b\x7d` with an empty constructor) instead of the SHA-256 initial
hash words, so its digest differs from the OpenSSL-backed `hash::sha256`
already on the empty input and on `"abc"`; the reference model is validated
against the empty-string constant the repository itself records. -/
theorem sha256x_digest_differs_from_sha256 :
    Sha256x.digest (Sha256x.update Sha256x.init []) ≠ sha256 [] ∧
    Sha256x.digest (Sha256x.update Sha256x.init (strBytes "abc")) ≠ sha256 (strBytes "abc") ∧
    encodeHex (Sha256x.digest (Sha256x.update Sha256x.init [])) =
      "361ab6322fa9e7a7bb23818d839e01bddafdf47305426edd297aedb9f6202bae" ∧
    encodeHex (sha256 []) = EMPTY_STRING_SHA256 ∧
    encodeHex (sha256 (strBytes "abc")) =
      "ba7816bf8f01cfea414140de5dae2223b00361a396177a9cb410ff61f20015ad" := by
  decide

/-- A string has length zero exactly when it is empty. -/
theorem string_length_eq_zero_iff (s : String) : s.length = 0 ↔ s = "" := by
  constructor
  · intro h
    cases s with
    | mk d =>
      cases d with
      | nil => rfl
      | cons c cs => simp [String.length] at h
  · intro h
    subst h
    rfl

/-- After `headersSet hs name v` the name is present. -/
theorem mem_headersSet_self (hs : Headers) (name v : String) :
    name ∈ (headersSet hs name v).map Prod.fst := by
  unfold headersSet
  by_cases h : hs.any (fun p => decide (p.1 = name))
  · simp only [h, if_true]
    obtain ⟨p, hp, he⟩ := List.any_eq_true.mp h
    refine List.mem_map.mpr ⟨(name, v), List.mem_map.mpr ⟨p, hp, ?_⟩, rfl⟩
    simp [of_decide_eq_true he]
  · simp [h]

/-- `headersSet` does not change the presence of any other name. -/
theorem mem_headersSet_ne (hs : Headers) (name v name2 : String) (hne : name2 ≠ name) :
    name2 ∈ (headersSet hs name v).map Prod.fst ↔ name2 ∈ hs.map Prod.fst := by
  unfold headersSet
  by_cases h : hs.any (fun p => decide (p.1 = name))
  · simp only [h, if_true, List.mem_map]
    constructor
    · rintro ⟨q, ⟨p, hp, rfl⟩, hq⟩
      by_cases hpn : p.1 = name
      · simp [hpn] at hq
        exact absurd hq.symm hne
      · simp [hpn] at hq
        exact ⟨p, hp, hq⟩
    · rintro ⟨p, hp, he⟩
      have hpn : p.1 ≠ name := fun hx => hne (he ▸ hx ▸ rfl)
      exact ⟨p, ⟨p, hp, by simp [hpn]⟩, he⟩
  · simp [h, hne]

/-- The stamped headers carry `X-Amz-Security-Token` exactly when the
session token is non-empty (hash.h:146-151). -/
theorem securityToken_mem_iff (base : Headers) (id ds ch token : String)
    (hbase : "X-Amz-Security-Token" ∉ base.map Prod.fst) :
    ("X-Amz-Security-Token" ∈ (stampHeaders base id ds ch token).map Prod.fst ↔ token ≠ "") := by
  unfold stampHeaders
  by_cases ht : token.length ≠ 0
  · rw [if_pos ht]
    constructor
    · intro _
      exact fun he => ht (by rw [he]; rfl)
    · intro _
      exact mem_headersSet_self _ _ _
  · rw [if_neg ht]
    push_neg at ht
    have htok : token = "" := (string_length_eq_zero_iff token).mp ht
    subst htok
    rw [mem_headersSet_ne _ _ _ _ (by decide), mem_headersSet_ne _ _ _ _ (by decide),
        mem_headersSet_ne _ _ _ _ (by decide), mem_headersSet_ne _ _ _ _ (by decide)]
    simp [hbase]

/-- Claim C4 counterexample: with the non-empty session token `"T"` the
middleware stamps the `X-Amz-Security-Token` request header, yet neither
the canonical header names of `hashRequest` nor the constant `signedHeaders`
list (their semicolon join) contain `x-amz-security-token`, so the token is
never part of the signed header set. -/
theorem security_token_counterexample :
    "X-Amz-Security-Token" ∈
      (stampHeaders [] "id" "20230730T133730Z" "UNSIGNED-PAYLOAD" "T").map Prod.fst ∧
    "x-amz-security-token" ∉ canonicalHeaderNames ∧
    String.intercalate ";" canonicalHeaderNames = signedHeaders ∧
    ("T" : String) ≠ "" := by
  decide

/-- Claim C4 amended: the `x-amz-security-token` request header is set if
and only if the credentials supply a non-empty session token, but it is
never included in the signed header set: the canonical headers hash a fixed
five-name list and `SignedHeaders` is the constant semicolon join of those
five names. -/
theorem security_token_set_but_never_signed (base : Headers) (id ds ch token : String)
    (hbase : "X-Amz-Security-Token" ∉ base.map Prod.fst) :
    ("X-Amz-Security-Token" ∈ (stampHeaders base id ds ch token).map Prod.fst ↔ token ≠ "") ∧
    "x-amz-security-token" ∉ canonicalHeaderNames ∧
    String.intercalate ";" canonicalHeaderNames = signedHeaders :=
  ⟨securityToken_mem_iff base id ds ch token hbase, by decide, by decide⟩

/-- Witness for the amended claim C4 at concrete inputs. -/
theorem security_token_set_but_never_signed_witness :
    ("X-Amz-Security-Token" ∉ ([] : Headers).map Prod.fst) ∧
    (("X-Amz-Security-Token" ∈
        (stampHeaders [] "id" "ds" "UNSIGNED-PAYLOAD" "tok").map Prod.fst ↔
          ("tok" : String) ≠ "") ∧
      "x-amz-security-token" ∉ canonicalHeaderNames ∧
      String.intercalate ";" canonicalHeaderNames = signedHeaders) :=
  ⟨by decide,
   security_token_set_but_never_signed [] "id" "ds" "UNSIGNED-PAYLOAD" "tok" (by decide)⟩

/-- `String.intercalate.go` renders the accumulator followed by the
`&`-separated tail. -/
theorem intercalate_go_amp (as : List String) :
    ∀ acc, String.intercalate.go acc "&" as = acc ++ ampTail as := by
  induction as with
  | nil => intro acc; simp [String.intercalate.go, ampTail]
  | cons a as ih =>
    intro acc
    rw [show String.intercalate.go acc "&" (a :: as) =
      String.intercalate.go (acc ++ "&" ++ a) "&" as from rfl, ih]
    simp [ampTail, String.append_assoc]

/-- `orderedQuery` unfolded to head plus tail. -/
theorem orderedQuery_cons (ps : List (String × String)) :
    ∀ p, orderedQuery (p :: ps) =
      (p.1 ++ "=" ++ p.2) ++ ampTail (ps.map (fun q => q.1 ++ "=" ++ q.2)) := by
  induction ps with
  | nil => intro p; simp [orderedQuery, ampTail]
  | cons q qs ih =>
    intro p
    rw [show orderedQuery (p :: q :: qs) =
      p.1 ++ "=" ++ p.2 ++ "&" ++ orderedQuery (q :: qs) from rfl, ih q]
    simp [ampTail, String.append_assoc]

/-- Claim C5 amended: the canonical query string renders the parameters in
the order they appear in the URL — not sorted — each as `key=value` with
the `=` present even for an empty value, joined with `&`. -/
theorem canonical_query_is_parse_order (params : List (String × String)) :
    canonicalQuery params = orderedQuery params := by
  cases params with
  | nil => rfl
  | cons p ps =>
    rw [show canonicalQuery (p :: ps) =
      String.intercalate.go (p.1 ++ "=" ++ p.2) "&" (ps.map (fun q => q.1 ++ "=" ++ q.2))
      from rfl]
    rw [intercalate_go_amp, orderedQuery_cons]

/-- Claim C6: the empty path canonicalises to `/` exactly as the claim says
(so `/` and the empty path agree), but path segments are signed verbatim
with no percent-encoding: a segment containing a space is hashed as `a b`
where the claim prescribes `a%20b`. -/
theorem canonical_uri_not_percent_encoded :
    canonicalUri [] = "/" ∧ specCanonicalUri [] = "/" ∧
    canonicalUri ["a b"] = "/a b" ∧ specCanonicalUri ["a b"] = "/a%20b" ∧
    canonicalUri ["a b"] ≠ specCanonicalUri ["a b"] := by
  decide

/-- Any write for which the remaining buffer space is positive and no
larger than the write recurses on an identical first slice without
consuming input, so it returns `none` at every fuel (s3.cpp:494-500:
`remaining <= bytes.size()` recurses on `write(bytes.slice(0, remaining))`
with the buffer state unchanged). -/
theorem writeFuel_diverges_of_remaining_le (c : Nat) (fuel : Nat) :
    ∀ (st : WriteState) (s : Nat), c - st.fill ≤ s → 0 < c - st.fill →
      writeFuel c fuel st s = none := by
  induction fuel with
  | zero => intro st s _ _; rfl
  | succ m ih =>
    intro st s hle hpos
    have hs : ¬ s = 0 := by omega
    simp only [writeFuel, hs, if_false, if_pos hle]
    rw [ih st (c - st.fill) le_rfl hpos]

/-- Claim C7: a body of exactly the buffer size written to a fresh
`MultipartStream` never completes — for every fuel the write interpretation
yields `none` — so it does not produce the single part the claim
prescribes; the flush branch is unreachable. -/
theorem exact_partSize_write_never_completes (c : Nat) (hc : 0 < c) (fuel : Nat) :
    writeFuel c fuel ⟨0, []⟩ c = none :=
  writeFuel_diverges_of_remaining_le c fuel ⟨0, []⟩ c
    (by show c - 0 ≤ c; omega) (by show 0 < c - 0; omega)

/-- Witness for claim C7 at buffer size 4 and fuel 10. -/
theorem exact_partSize_write_never_completes_witness :
    0 < 4 ∧ writeFuel 4 10 ⟨0, []⟩ 4 = none :=
  ⟨by decide, exact_partSize_write_never_completes 4 (by decide) 10⟩

/-- The flush branch of `MultipartStream::write` is dead code: every write
call that completes leaves the list of dispatched parts unchanged. -/
theorem write_never_dispatches_part (c : Nat) (fuel : Nat) :
    ∀ (st : WriteState) (s : Nat) (out : WriteState),
      writeFuel c fuel st s = some out → out.partsSent = st.partsSent := by
  induction fuel with
  | zero => intro st s out h; cases h
  | succ m ih =>
    intro st s out h
    simp only [writeFuel] at h
    by_cases hs : s = 0
    · simp only [hs, if_true] at h
      cases h
      rfl
    · simp only [hs, if_false] at h
      by_cases hr : c - st.fill ≤ s
      · rw [if_pos hr] at h
        cases hin : writeFuel c m st (c - st.fill) with
        | none => rw [hin] at h; cases h
        | some st2 =>
          rw [hin] at h
          have h1 := ih st (c - st.fill) st2 hin
          have h2 := ih st2 (s - (c - st.fill)) out h
          rw [h2, h1]
      · rw [if_neg hr] at h
        have hne : ¬ s = c - st.fill := by omega
        rw [if_neg hne] at h
        cases h
        rfl

/-- `n` calls to `sendPart` build the parts list `⟨1, ""⟩ .. ⟨n, ""⟩`. -/
theorem submitParts_eq_range (n : Nat) :
    submitParts n = (List.range' 1 n).map (fun k => PartRec.mk k "") := by
  induction n with
  | zero => rfl
  | succ m ih =>
    show addPart (submitParts m) = _
    rw [ih, List.range'_concat]
    simp [addPart, List.length_range']
    omega

/-- Recording an etag for part `j` only rewrites the etag of entry `j`. -/
theorem recordEtag_canonical (n j : Nat) (e : String) (g : Nat → String)
    (h1 : 1 ≤ j) (h2 : j ≤ n) :
    recordEtag ((List.range' 1 n).map (fun k => PartRec.mk k (g k))) j e =
      (List.range' 1 n).map (fun k => PartRec.mk k (if k = j then e else g k)) := by
  have hj : j - 1 < n := by omega
  have hget : ((List.range' 1 n).map (fun k => PartRec.mk k (g k)))[j-1]? =
      some (PartRec.mk (1 + (j - 1)) (g (1 + (j - 1)))) := by
    simp [List.getElem?_map, List.getElem?_range' 1 1 hj]
  unfold recordEtag
  rw [hget]
  apply List.ext_getElem?
  intro i
  by_cases hi : i = j - 1
  · subst hi
    rw [List.getElem?_set_self (by simpa [List.length_range'] using hj)]
    rw [List.getElem?_map, List.getElem?_range' 1 1 hj, Option.map_some']
    rw [show 1 + 1 * (j - 1) = j from by omega, show 1 + (j - 1) = j from by omega]
    rw [if_pos rfl]
  · rw [List.getElem?_set_ne (fun hx => hi hx.symm)]
    rw [List.getElem?_map, List.getElem?_map]
    by_cases hlt : i < n
    · rw [List.getElem?_range' 1 1 hlt, Option.map_some', Option.map_some']
      rw [if_neg (show ¬ 1 + 1 * i = j by omega)]
    · rw [List.getElem?_eq_none (by simp [List.length_range']; omega)]
      rfl

/-- Etags recorded in any arrival order land on their own entries: part
numbers are untouched and each arrived etag sits at its part. -/
theorem recordAll_canonical (n : Nat) (etags : Nat → String) :
    ∀ (arrivals : List (Nat × String)) (g : Nat → String),
      (∀ p ∈ arrivals, 1 ≤ p.1 ∧ p.1 ≤ n ∧ p.2 = etags p.1) →
      recordAll ((List.range' 1 n).map (fun k => PartRec.mk k (g k))) arrivals =
        (List.range' 1 n).map (fun k => PartRec.mk k
          (if k ∈ arrivals.map Prod.fst then etags k else g k)) := by
  intro arrivals
  induction arrivals with
  | nil =>
    intro g _
    simp [recordAll]
  | cons a rest ih =>
    intro g hp
    obtain ⟨j, e⟩ := a
    have hj := hp (j, e) (List.mem_cons_self _ _)
    have hstep : recordAll ((List.range' 1 n).map (fun k => PartRec.mk k (g k))) ((j, e) :: rest) =
        recordAll (recordEtag ((List.range' 1 n).map (fun k => PartRec.mk k (g k))) j e) rest := rfl
    rw [hstep, recordEtag_canonical n j e g hj.1 hj.2.1,
        ih (fun k => if k = j then e else g k) (fun p hmem => hp p (List.mem_cons_of_mem _ hmem))]
    apply List.map_congr_left
    intro k _
    by_cases hk1 : k ∈ rest.map Prod.fst
    · simp [hk1]
    · by_cases hk2 : k = j
      · subst hk2
        simp [hk1]
        exact hj.2.2
      · simp [hk1, hk2]

/-- Claim C8: after `n` part submissions the submitted part numbers are
exactly `1..n` with no gaps and strictly ascending, whatever order the part
responses arrive in, and the completion XML lists the (PartNumber, ETag)
pairs in ascending part-number order with each etag echoed verbatim. -/
theorem partNumbers_are_one_to_n (n : Nat) (etags : Nat → String)
    (arrivals : List (Nat × String))
    (harr : ∀ p ∈ arrivals, 1 ≤ p.1 ∧ p.1 ≤ n ∧ p.2 = etags p.1)
    (hcov : ∀ k ∈ List.range' 1 n, k ∈ arrivals.map Prod.fst) :
    (recordAll (submitParts n) arrivals).map PartRec.partNumber = List.range' 1 n ∧
    List.Chain' (· < ·) ((recordAll (submitParts n) arrivals).map PartRec.partNumber) ∧
    completeXml (recordAll (submitParts n) arrivals) =
      "<CompleteMultipartUpload>" ++
        String.join ((List.range' 1 n).map (fun k =>
          "<Part><PartNumber>" ++ toString k ++ "</PartNumber><ETag>" ++ etags k ++
            "</ETag></Part>")) ++
        "</CompleteMultipartUpload>" := by
  have hfinal : recordAll (submitParts n) arrivals =
      (List.range' 1 n).map (fun k => PartRec.mk k (etags k)) := by
    rw [submitParts_eq_range, recordAll_canonical n etags arrivals (fun _ => "") harr]
    apply List.map_congr_left
    intro k hk
    simp [hcov k hk]
  have hnums : (recordAll (submitParts n) arrivals).map PartRec.partNumber = List.range' 1 n := by
    rw [hfinal, List.map_map]
    have hid : (PartRec.partNumber ∘ fun k => PartRec.mk k (etags k)) = id := rfl
    rw [hid, List.map_id]
  refine ⟨hnums, ?_, ?_⟩
  · rw [hnums]
    exact (List.pairwise_lt_range' 1 n).chain'
  · rw [hfinal]
    unfold completeXml
    rw [List.map_map]
    rfl

/-- Witness for claim C8: two parts whose responses arrive out of order. -/
theorem partNumbers_are_one_to_n_witness :
    (∀ p ∈ [((2 : Nat), "\"e2\""), ((1 : Nat), "\"e1\"")],
        1 ≤ p.1 ∧ p.1 ≤ 2 ∧ p.2 = (fun k => if k = 1 then "\"e1\"" else "\"e2\"") p.1) ∧
    ((recordAll (submitParts 2) [(2, "\"e2\""), (1, "\"e1\"")]).map PartRec.partNumber =
        List.range' 1 2 ∧
      List.Chain' (· < ·)
        ((recordAll (submitParts 2) [(2, "\"e2\""), (1, "\"e1\"")]).map PartRec.partNumber) ∧
      completeXml (recordAll (submitParts 2) [(2, "\"e2\""), (1, "\"e1\"")]) =
        "<CompleteMultipartUpload>" ++
          String.join ((List.range' 1 2).map (fun k =>
            "<Part><PartNumber>" ++ toString k ++ "</PartNumber><ETag>" ++
              (fun k => if k = 1 then "\"e1\"" else "\"e2\"") k ++ "</ETag></Part>")) ++
          "</CompleteMultipartUpload>") :=
  ⟨by decide,
   partNumbers_are_one_to_n 2 (fun k => if k = 1 then "\"e1\"" else "\"e2\"")
     [(2, "\"e2\""), (1, "\"e1\"")] (by decide) (by decide)⟩

end AwsCapnp
